/-
Verification of the minfiks-overgang-sjekker core: a shallow embedding of
the season codec (src/utils.ts), the expiring cache (src/db.ts), and the
aggregation engine (src/components/Tracker.tsx), together with proofs of
the specified properties.
-/
import Mathlib

namespace MinFiks

/-! ## Number-to-string codec

JavaScript renders an integral `number` in base 10 with a leading minus
sign for negatives; `parseInt` skips leading whitespace, accepts an
optional sign, and reads the longest digit run. We embed both directions
so that `seasonIdForYear` and `yearForSeasonId` (src/utils.ts lines 4-5)
can be stated faithfully. -/

/-- Maps a single decimal digit value to its ASCII character. -/
def digitToChar : Nat → Char
  | 0 => '0'
  | 1 => '1'
  | 2 => '2'
  | 3 => '3'
  | 4 => '4'
  | 5 => '5'
  | 6 => '6'
  | 7 => '7'
  | 8 => '8'
  | 9 => '9'
  | _ => '?'

/-- Maps an ASCII digit character back to its value, `none` on non-digits. -/
def charToDigit? (c : Char) : Option Nat :=
  if 48 ≤ c.toNat ∧ c.toNat ≤ 57 then some (c.toNat - 48) else none

/-- Fuel-driven little-endian base-10 digit expansion (least significant
digit first), structurally recursive so it evaluates inside the kernel. -/
def toDigitsRev (fuel : Nat) (n : Nat) : List Nat :=
  match fuel with
  | 0 => []
  | fuel + 1 => if n = 0 then [] else n % 10 :: toDigitsRev fuel (n / 10)

/-- Little-endian base-10 digits of `n` (empty for zero). -/
def natDigits (n : Nat) : List Nat := toDigitsRev n n

/-- Embeds JavaScript `Number.prototype.toString()` on a natural number. -/
def natToString (n : Nat) : String :=
  if n = 0 then "0" else String.mk ((natDigits n).reverse.map digitToChar)

/-- Embeds JavaScript `Number.prototype.toString()` on an integer. -/
def intToString (i : Int) : String :=
  if i < 0 then "-" ++ natToString i.natAbs else natToString i.natAbs

/-- Longest leading run of decimal digits of a character list, as values. -/
def leadingDigits : List Char → List Nat
  | [] => []
  | c :: cs =>
    match charToDigit? c with
    | some d => d :: leadingDigits cs
    | none => []

/-- Value of a big-endian digit list, accumulating left to right exactly
as a positional parse does. -/
def digitsVal (ds : List Nat) : Nat := ds.foldl (fun a d => 10 * a + d) 0

/-- Reads the longest leading digit run as a natural number; `none` when
the list does not start with a digit (JavaScript `parseInt` yields NaN). -/
def readNatDigits (l : List Char) : Option Nat :=
  if leadingDigits l = [] then none else some (digitsVal (leadingDigits l))

/-- Reads an optionally signed decimal prefix. -/
def readSignedDigits : List Char → Option Int
  | [] => none
  | c :: cs =>
    if c = '-' then (readNatDigits cs).map (fun n => -(n : Int))
    else if c = '+' then (readNatDigits cs).map (fun n => (n : Int))
    else (readNatDigits (c :: cs)).map (fun n => (n : Int))

/-- Embeds JavaScript `parseInt(s)` (radix 10): skip leading whitespace,
optional sign, longest digit run; `none` models NaN. -/
def parseIntJS (s : String) : Option Int :=
  readSignedDigits (s.data.dropWhile Char.isWhitespace)

/-- Embeds `seasonIdForYear` (src/utils.ts line 4):
`(year - 1917).toString()`. -/
def seasonIdForYear (year : Int) : String := intToString (year - 1917)

/-- Embeds `yearForSeasonId` (src/utils.ts line 5):
`parseInt(seasonId) + 1917`; `none` models the NaN outcome. -/
def yearForSeasonId (seasonId : String) : Option Int :=
  (parseIntJS seasonId).map (· + 1917)

/-! ## Expiring key-value cache (src/db.ts)

IndexedDB object stores are keyed by the `key` field of the stored
record (`keyPath: 'key'`); a key is a string or a number. Each store is
modelled as a list of records looked up by key, with `put` as upsert. -/

/-- Embeds the `string | number` key type of `CacheItem`. -/
inductive JsKey where
  | str (s : String)
  | num (n : Int)
deriving DecidableEq

/-- Embeds `CacheItem<T>` (src/types.ts): `{ key, data, timestamp }`. -/
structure CacheItem (α : Type) where
  key : JsKey
  data : α
  timestamp : Int
deriving DecidableEq

/-- Embeds `CACHE_DURATION_MS = 60 * 60 * 1000` (src/db.ts line 6). -/
def CACHE_DURATION_MS : Int := 60 * 60 * 1000

/-- Embeds `isCacheValid` (src/db.ts lines 53-55):
`item ? (Date.now() - item.timestamp) < CACHE_DURATION_MS : false`,
with the current clock passed explicitly. -/
def isCacheValid (now : Int) (item : Option (CacheItem α)) : Bool :=
  match item with
  | some it => now - it.timestamp < CACHE_DURATION_MS
  | none => false

/-- Embeds `store.get(key)` on an object store. -/
def lookupStore (items : List (CacheItem α)) (k : JsKey) : Option (CacheItem α) :=
  items.find? (fun it => it.key == k)

/-- Embeds `store.put(item)`: upsert by the record's own key. -/
def putStore (items : List (CacheItem α)) (item : CacheItem α) : List (CacheItem α) :=
  if items.any (fun it => it.key == item.key) then
    items.map (fun it => if it.key == item.key then item else it)
  else items ++ [item]

/-! ## Domain types (src/types.ts) -/

/-- Embeds `Club`: `{ id: number, name: string }`. -/
structure Club where
  id : Int
  name : String
deriving DecidableEq

/-- Embeds the raw remote club shape `{ value: number, label: string }`
(src/components/Tracker.tsx line 67). -/
structure RawClubData where
  value : Int
  label : String
deriving DecidableEq

/-- Embeds `Competition`: `{ id, name }`. -/
structure Competition where
  id : Int
  name : String
deriving DecidableEq

/-- Embeds the `{ name: string }` shape used for age category and genre. -/
structure NameOnly where
  name : String
deriving DecidableEq

/-- Embeds `Team` (src/types.ts). -/
structure Team where
  id : Int
  name : String
  clubId : Int
  clubName : String
  competitions : List Competition
  ageCategory : NameOnly
  genre : NameOnly
deriving DecidableEq

/-- Embeds `Player`: `{ personId, firstName, lastName }`. -/
structure Player where
  personId : Int
  firstName : String
  lastName : String
deriving DecidableEq

/-- Embeds one side of a `Match`: `{ id, name, players }`. -/
structure MatchSide where
  id : Int
  name : String
  players : List Player
deriving DecidableEq

/-- Embeds `Match` (src/types.ts): `{ id, week, homeTeam, awayTeam }`. -/
structure MatchData where
  id : Int
  week : Int
  homeTeam : MatchSide
  awayTeam : MatchSide
deriving DecidableEq

/-- Embeds the `{id: number}` match stubs returned by the match-list
endpoint (src/components/Tracker.tsx line 141). -/
structure MatchStub where
  id : Int
deriving DecidableEq

/-- Embeds `PlayerUsageData` (src/types.ts); the JavaScript objects
`players` and `usage` are modelled as association lists in property
insertion order. -/
structure PlayerUsageData where
  players : List (String × String)
  weeks : List String
  usage : List (String × List (String × String))
deriving DecidableEq

/-! ## Club search parsing (src/components/Tracker.tsx lines 67-81)

The source filters raw entries through the truthiness test
`club.value && club.label && club.label.trim() !== ''` and then feeds
survivors into a `Map<number, RawClubData>` keyed by `club.value`.
`Map.prototype.set` keeps the original insertion position of an existing
key but replaces its value, so a duplicated id keeps its first-seen
position and its last-seen label. -/

/-- Embeds JavaScript `String.prototype.trim`: strip whitespace from
both ends. -/
def jsTrim (s : String) : String :=
  String.mk (((s.data.dropWhile Char.isWhitespace).reverse.dropWhile Char.isWhitespace).reverse)

/-- Embeds the filter `club.value && club.label && club.label.trim() !== ''`. -/
def keepClub (c : RawClubData) : Bool :=
  c.value != 0 && c.label != "" && jsTrim c.label != ""

/-- Embeds `Map.prototype.set` on an insertion-ordered association list:
an existing key keeps its position and gets the new value, a new key is
appended. -/
def clubMapSet (m : List (Int × RawClubData)) (k : Int) (v : RawClubData) :
    List (Int × RawClubData) :=
  if m.any (fun p => p.1 == k) then
    m.map (fun p => if p.1 == k then (k, v) else p)
  else m ++ [(k, v)]

/-- Embeds the `uniqueClubs` map built by `rawData.forEach` at
src/components/Tracker.tsx lines 71-76. -/
def uniqueClubs (raw : List RawClubData) : List (Int × RawClubData) :=
  raw.foldl (fun m c => if keepClub c then clubMapSet m c.value c else m) []

/-- Embeds lines 78-81: `Array.from(uniqueClubs.values()).map(...)`. -/
def parseClubs (raw : List RawClubData) : List Club :=
  (uniqueClubs raw).map (fun p => { id := p.2.value, name := p.2.label })

/-- Describes the surviving entry for a key: the last entry of the raw
list that passes the filter and carries that id (what a last-write-wins
map retains). -/
def lastKept (raw : List RawClubData) (k : Int) : Option RawClubData :=
  raw.foldl (fun acc r => if keepClub r && r.value == k then some r else acc) none

/-- Embeds `Map.prototype.get` on the insertion-ordered association list. -/
def clubLookup (m : List (Int × RawClubData)) (k : Int) : Option RawClubData :=
  (m.find? (fun p => p.1 == k)).map (fun p => p.2)

/-! ## Remote boundary and the four cache-or-fetch paths

A remote response carries the `ok` flag and HTTP status together with a
body that parses to the expected shape or fails (`json()` rejecting);
`none` at the outer level is a transport failure (`fetch` rejecting).
The oracle fixes what the network would answer for every request. -/

/-- Models a settled HTTP response: `ok`/`status`, and the parsed JSON
body (`none` when `response.json()` would reject). -/
structure Response (α : Type) where
  ok : Bool
  status : Int
  json : Option α

/-- Holds whether an attempted request fails at transport, HTTP status,
or body-parse level. -/
def fetchFails : Option (Response α) → Bool
  | none => true
  | some r => !r.ok || r.json.isNone

/-- Models the remote endpoints the Tracker component calls. -/
structure Remote where
  searchClubs : String → String → Option (Response (List RawClubData))
  teams : Int → Option (Response (List Team))
  matchesList : Int → Int → Option (Response (List MatchStub))
  matchDetail : Int → Option (Response MatchData)

/-- Collects the four independent object stores of `FootballTrackerDB`
(src/db.ts lines 13-24). -/
structure Cache where
  clubSearch : List (CacheItem (List Club))
  teams : List (CacheItem (List Team))
  matchLists : List (CacheItem (List MatchStub))
  matchDetails : List (CacheItem MatchData)
deriving DecidableEq

/-- Records every cache access and network request an operation makes. -/
inductive Ev where
  | readClubSearch (key : String)
  | writeClubSearch (key : String)
  | fetchClubSearch (term seasonId : String)
  | readTeams (key : Int)
  | writeTeams (key : Int)
  | fetchTeams (clubId : Int)
  | readMatchLists (key : String)
  | writeMatchLists (key : String)
  | fetchMatchList (teamId compId : Int)
  | readMatchDetails (key : Int)
  | writeMatchDetails (key : Int)
  | fetchMatchDetail (id : Int)
deriving DecidableEq

/-- Embeds the cache key `` `${id}-${competitionId}` `` of Stage C
(src/components/Tracker.tsx line 140). -/
def listKey (teamId compId : Int) : String :=
  intToString teamId ++ "-" ++ intToString compId

/-- Embeds the cache-or-fetch body of `searchForClubs`
(src/components/Tracker.tsx lines 43-89): read the `club-search` cache,
return a fresh hit, otherwise POST the search, fail on non-ok status or
unparsable body, and only then parse, dedup and write back. -/
def searchForClubsFetch (remote : Remote) (now : Int) (c : Cache)
    (clubQuery seasonId : String) : Cache × List Ev × Except String (List Club) :=
  let cacheKey := clubQuery ++ "-" ++ seasonId
  let cached := lookupStore c.clubSearch (JsKey.str cacheKey)
  let tr0 := [Ev.readClubSearch cacheKey]
  match cached, isCacheValid now cached with
  | some item, true => (c, tr0, Except.ok item.data)
  | _, _ =>
    let tr1 := tr0 ++ [Ev.fetchClubSearch clubQuery seasonId]
    match remote.searchClubs clubQuery seasonId with
    | none => (c, tr1, Except.error "NetworkError")
    | some resp =>
      if !resp.ok then
        (c, tr1, Except.error ("Failed to fetch clubs. Status: " ++ intToString resp.status))
      else
        match resp.json with
        | none => (c, tr1, Except.error "NetworkError")
        | some rawData =>
          let data := parseClubs rawData
          ({ c with clubSearch :=
               putStore c.clubSearch { key := JsKey.str cacheKey, data := data, timestamp := now } },
           tr1 ++ [Ev.writeClubSearch cacheKey], Except.ok data)

/-- Embeds the cache-or-fetch body of `fetchTeams`
(src/components/Tracker.tsx lines 221-232). -/
def fetchTeamsPath (remote : Remote) (now : Int) (c : Cache) (clubId : Int) :
    Cache × List Ev × Except String (List Team) :=
  let cached := lookupStore c.teams (JsKey.num clubId)
  let tr0 := [Ev.readTeams clubId]
  match cached, isCacheValid now cached with
  | some item, true => (c, tr0, Except.ok item.data)
  | _, _ =>
    let tr1 := tr0 ++ [Ev.fetchTeams clubId]
    match remote.teams clubId with
    | none => (c, tr1, Except.error "NetworkError")
    | some resp =>
      if !resp.ok then (c, tr1, Except.error "Failed to fetch teams.")
      else
        match resp.json with
        | none => (c, tr1, Except.error "NetworkError")
        | some data =>
          ({ c with teams := putStore c.teams { key := JsKey.num clubId, data := data, timestamp := now } },
           tr1 ++ [Ev.writeTeams clubId], Except.ok data)

/-- Embeds one Stage C cache-or-fetch (src/components/Tracker.tsx lines
139-149): the per-team match-list retrieval keyed by
`` `${id}-${competitionId}` `` in `match-lists`. -/
def fetchMatchListPath (remote : Remote) (now : Int) (c : Cache)
    (teamId compId : Int) : Cache × List Ev × Except String (List MatchStub) :=
  let cacheKey := listKey teamId compId
  let cached := lookupStore c.matchLists (JsKey.str cacheKey)
  let tr0 := [Ev.readMatchLists cacheKey]
  match cached, isCacheValid now cached with
  | some item, true => (c, tr0, Except.ok item.data)
  | _, _ =>
    let tr1 := tr0 ++ [Ev.fetchMatchList teamId compId]
    match remote.matchesList teamId compId with
    | none => (c, tr1, Except.error "NetworkError")
    | some resp =>
      if !resp.ok then
        (c, tr1, Except.error ("Failed fetching matches for team " ++ intToString teamId))
      else
        match resp.json with
        | none => (c, tr1, Except.error "NetworkError")
        | some data =>
          ({ c with matchLists :=
               putStore c.matchLists { key := JsKey.str cacheKey, data := data, timestamp := now } },
           tr1 ++ [Ev.writeMatchLists cacheKey], Except.ok data)

/-- Embeds one Stage D cache-or-fetch (src/components/Tracker.tsx lines
159-168): the per-match detail retrieval keyed by the match id in
`match-details`. -/
def fetchMatchDetailPath (remote : Remote) (now : Int) (c : Cache) (mId : Int) :
    Cache × List Ev × Except String MatchData :=
  let cached := lookupStore c.matchDetails (JsKey.num mId)
  let tr0 := [Ev.readMatchDetails mId]
  match cached, isCacheValid now cached with
  | some item, true => (c, tr0, Except.ok item.data)
  | _, _ =>
    let tr1 := tr0 ++ [Ev.fetchMatchDetail mId]
    match remote.matchDetail mId with
    | none => (c, tr1, Except.error "NetworkError")
    | some resp =>
      if !resp.ok then
        (c, tr1, Except.error ("Failed fetching details for match " ++ intToString mId))
      else
        match resp.json with
        | none => (c, tr1, Except.error "NetworkError")
        | some data =>
          ({ c with matchDetails :=
               putStore c.matchDetails { key := JsKey.num mId, data := data, timestamp := now } },
           tr1 ++ [Ev.writeMatchDetails mId], Except.ok data)

/-- Runs the Stage C fan-out over the selected team ids. `Promise.all`
is modelled by sequencing the per-team retrievals and stopping at the
first rejection, which is the joint outcome the source observes. -/
def stageC (remote : Remote) (now : Int) (compId : Int) :
    Cache → List Int → Cache × List Ev × Except String (List (List MatchStub))
  | c, [] => (c, [], Except.ok [])
  | c, t :: ts =>
    let step := fetchMatchListPath remote now c t compId
    match step.2.2 with
    | Except.error e => (step.1, step.2.1, Except.error e)
    | Except.ok data =>
      let rest := stageC remote now compId step.1 ts
      (rest.1, step.2.1 ++ rest.2.1, rest.2.2.map (fun l => data :: l))

/-- Runs the Stage D fan-out over the deduplicated match ids. -/
def stageD (remote : Remote) (now : Int) :
    Cache → List Int → Cache × List Ev × Except String (List MatchData)
  | c, [] => (c, [], Except.ok [])
  | c, m :: ms =>
    let step := fetchMatchDetailPath remote now c m
    match step.2.2 with
    | Except.error e => (step.1, step.2.1, Except.error e)
    | Except.ok data =>
      let rest := stageD remote now step.1 ms
      (rest.1, step.2.1 ++ rest.2.1, rest.2.2.map (fun l => data :: l))

/-- Embeds `new Set(list)` on numbers: first occurrence kept, later
duplicates dropped, insertion order preserved. -/
def dedupKeepFirst (l : List Int) : List Int :=
  l.foldl (fun acc x => if acc.contains x then acc else acc ++ [x]) []

/-- Embeds `new Set(matchLists.flat().map(m => m.id))`
(src/components/Tracker.tsx line 152). -/
def matchIdUnion (lists : List (List MatchStub)) : List Int :=
  dedupKeepFirst ((lists.flatten).map (fun m => m.id))

/-! ## Fold step (src/components/Tracker.tsx lines 172-193)

JavaScript objects are modelled as association lists in property
insertion order: assigning an existing key updates it in place,
assigning a new key appends it. The week set is a `Finset` because only
its sorted form is observed. -/

/-- Embeds JavaScript object assignment `o[k] = v`. -/
def updAssoc (l : List (String × α)) (k : String) (v : α) : List (String × α) :=
  if l.any (fun p => p.1 == k) then
    l.map (fun p => if p.1 == k then (k, v) else p)
  else l ++ [(k, v)]

/-- Embeds JavaScript object read `o[k]` (`none` for undefined). -/
def lookupAssoc (l : List (String × α)) (k : String) : Option α :=
  (l.find? (fun p => p.1 == k)).map (fun p => p.2)

/-- Holds whether the JavaScript read `players[playerId]` is falsy:
undefined or the empty string. -/
def jsFalsyStr : Option String → Bool
  | none => true
  | some s => s == ""

/-- Embeds the `` `Uke ${week}` `` label (src/components/Tracker.tsx
lines 188 and 192). -/
def weekLabel (w : Int) : String := "Uke " ++ intToString w

/-- Embeds `Set.prototype.add` on numbers: append when absent. -/
def addToSet (l : List Int) (x : Int) : List Int :=
  if l.contains x then l else l ++ [x]

/-- Carries the `players`, `usage` and `weekSet` accumulators of the
fold (src/components/Tracker.tsx lines 172-174); the week set is a
duplicate-free list in insertion order, like a JavaScript `Set`. -/
structure FoldState where
  players : List (String × String)
  usage : List (String × List (String × String))
  weekSet : List Int
deriving DecidableEq

/-- Embeds the per-player body of the fold (src/components/Tracker.tsx
lines 182-189): register an unseen player, then record the week cell. -/
def foldPlayer (teamName : String) (week : Int) (st : FoldState) (p : Player) :
    FoldState :=
  let playerId := intToString p.personId
  let st1 :=
    if jsFalsyStr (lookupAssoc st.players playerId) then
      { st with
        players := updAssoc st.players playerId (p.firstName ++ " " ++ p.lastName),
        usage := updAssoc st.usage playerId [] }
    else st
  { st1 with
    usage := updAssoc st1.usage playerId
      (updAssoc ((lookupAssoc st1.usage playerId).getD []) (weekLabel week) teamName) }

/-- Records one matched side: add the week, then fold its players. -/
def foldSide (st : FoldState) (week : Int) (team : MatchSide) : FoldState :=
  let st1 := { st with weekSet := addToSet st.weekSet week }
  team.players.foldl (foldPlayer team.name week) st1

/-- Embeds the per-match body (src/components/Tracker.tsx lines
176-190): pick the home side when its id is selected, else the away
side; skip the match when the picked side is not selected. -/
def processMatch (sel : List Int) (st : FoldState) (m : MatchData) : FoldState :=
  let team := if sel.contains m.homeTeam.id then m.homeTeam else m.awayTeam
  if !sel.contains team.id then st
  else foldSide st m.week team

/-- Embeds the whole fold plus the final week formatting
(src/components/Tracker.tsx lines 172-193). -/
def buildUsage (sel : List Int) (ms : List MatchData) : PlayerUsageData :=
  let st := ms.foldl (processMatch sel) { players := [], usage := [], weekSet := [] }
  { players := st.players,
    weeks := (List.insertionSort (· ≤ ·) st.weekSet).map weekLabel,
    usage := st.usage }

/-! ## Tracker state and handlers -/

/-- Collects the Tracker component state hooks that the claims observe
(src/components/Tracker.tsx lines 16-34). -/
structure TrackerState where
  error : Option String
  clubQuery : String
  seasonId : String
  clubs : List Club
  selectedClub : Option Club
  allTeams : List Team
  genreFilter : String
  ageFilter : String
  selectedTeamIds : List Int
  competitionId : Option Int
  playerUsage : Option PlayerUsageData
deriving DecidableEq

/-- Embeds `handleSelectClub` (src/components/Tracker.tsx lines
118-124): the five setState calls of the click handler. -/
def handleSelectClub (club : Club) (s : TrackerState) : TrackerState :=
  { s with
    selectedClub := some club,
    clubs := [],
    clubQuery := "",
    playerUsage := none,
    selectedTeamIds := [] }

/-- Embeds the effect at src/components/Tracker.tsx lines 268-270 that
clears the competition choice when the selected club changes. -/
def selectClubEffect (s : TrackerState) : TrackerState :=
  { s with competitionId := none }

/-- Runs a club selection together with its effect: what one click on a
club in the result list amounts to. -/
def selectClubWithEffects (club : Club) (s : TrackerState) : TrackerState :=
  selectClubEffect (handleSelectClub club s)

/-- Holds whether the guard `selectedTeamIds.size === 0 || !competitionId`
(src/components/Tracker.tsx line 127) rejects the request; `some 0` is
falsy in JavaScript. -/
def analysisGuardFails (s : TrackerState) : Bool :=
  s.selectedTeamIds.isEmpty ||
    (match s.competitionId with
     | none => true
     | some k => k == 0)

/-- Embeds the validation message at src/components/Tracker.tsx line 128. -/
def validationMessage : String := "Please select at least one team and a competition."

/-- Embeds `handleFetchPlayerUsage` (src/components/Tracker.tsx lines
126-200) as a transition on state and cache that also reports the cache
and network operations it performed. -/
def handleFetchPlayerUsage (remote : Remote) (now : Int) (c : Cache)
    (s : TrackerState) : TrackerState × Cache × List Ev :=
  if analysisGuardFails s then
    ({ s with error := some validationMessage }, c, [])
  else
    match s.competitionId with
    | none => ({ s with error := some validationMessage }, c, [])
    | some compId =>
      let s1 := { s with error := none, playerUsage := none }
      let runC := stageC remote now compId c s.selectedTeamIds
      match runC.2.2 with
      | Except.error e => ({ s1 with error := some e }, runC.1, runC.2.1)
      | Except.ok matchLists =>
        let allMatchIds := matchIdUnion matchLists
        if allMatchIds.isEmpty then
          ({ s1 with playerUsage := some { players := [], weeks := [], usage := [] } },
           runC.1, runC.2.1)
        else
          let runD := stageD remote now runC.1 allMatchIds
          match runD.2.2 with
          | Except.error e => ({ s1 with error := some e }, runD.1, runC.2.1 ++ runD.2.1)
          | Except.ok details =>
            ({ s1 with playerUsage := some (buildUsage s.selectedTeamIds details) },
             runD.1, runC.2.1 ++ runD.2.1)

/-- Holds whether an event belongs to Stage D (match-detail cache or
network traffic). -/
def isStageDEv : Ev → Bool
  | Ev.readMatchDetails _ => true
  | Ev.writeMatchDetails _ => true
  | Ev.fetchMatchDetail _ => true
  | _ => false

/-! ## Concrete fixtures used for evaluating the theorems on inputs -/

/-- Provides an empty cache. -/
def cacheEmpty : Cache := { clubSearch := [], teams := [], matchLists := [], matchDetails := [] }

/-- Provides a remote on which every request fails at transport level. -/
def remoteDown : Remote :=
  { searchClubs := fun _ _ => none
    teams := fun _ => none
    matchesList := fun _ _ => none
    matchDetail := fun _ => none }

/-- Provides a remote whose match-list endpoint answers with an empty
list and everything else is down. -/
def remoteEmptyLists : Remote :=
  { remoteDown with matchesList := fun _ _ => some { ok := true, status := 200, json := some [] } }

/-- Provides a sample team. -/
def teamEx : Team :=
  { id := 10, name := "G14", clubId := 1, clubName := "Klubb",
    competitions := [], ageCategory := { name := "G14" }, genre := { name := "M" } }

/-- Provides a sample tracker state ready for analysis: one selected
team and a chosen competition. -/
def stateEx : TrackerState :=
  { error := none, clubQuery := "", seasonId := "107", clubs := [],
    selectedClub := none, allTeams := [], genreFilter := "", ageFilter := "",
    selectedTeamIds := [1], competitionId := some 2, playerUsage := none }

/-- Provides a sample match whose home side is team 1 and away side is
team 2. -/
def matchEx : MatchData :=
  { id := 5, week := 3,
    homeTeam := { id := 1, name := "Hjemme", players := [{ personId := 7, firstName := "Ola", lastName := "Nordmann" }] },
    awayTeam := { id := 2, name := "Borte", players := [{ personId := 8, firstName := "Kari", lastName := "Hansen" }] } }

/-! ## Codec lemmas -/

theorem charToDigit_digitToChar {d : Nat} (h : d < 10) :
    charToDigit? (digitToChar d) = some d := by
  interval_cases d <;> decide

theorem toDigitsRev_eq_digits : ∀ (fuel n : Nat), n ≤ fuel →
    toDigitsRev fuel n = Nat.digits 10 n
  | 0, n, h => by
    have : n = 0 := Nat.le_zero.mp h
    subst this
    simp [toDigitsRev]
  | fuel + 1, n, h => by
    by_cases hn : n = 0
    · subst hn; simp [toDigitsRev]
    · have hd := Nat.digits_def' (b := 10) (by norm_num) (Nat.pos_of_ne_zero hn)
      have hlt : n / 10 < n := Nat.div_lt_self (Nat.pos_of_ne_zero hn) (by norm_num)
      have : n / 10 ≤ fuel := by omega
      simp only [toDigitsRev, if_neg hn, hd, toDigitsRev_eq_digits fuel (n / 10) this]

theorem natDigits_eq_digits (n : Nat) : natDigits n = Nat.digits 10 n :=
  toDigitsRev_eq_digits n n le_rfl

theorem foldr_eq_ofDigits : ∀ l : List Nat,
    l.foldr (fun d a => 10 * a + d) 0 = Nat.ofDigits 10 l
  | [] => by simp [Nat.ofDigits]
  | d :: l => by
    simp only [List.foldr_cons, foldr_eq_ofDigits l, Nat.ofDigits_cons]
    omega

theorem digitsVal_reverse_digits (n : Nat) :
    digitsVal ((Nat.digits 10 n).reverse) = n := by
  unfold digitsVal
  rw [List.foldl_reverse, foldr_eq_ofDigits, Nat.ofDigits_digits]

theorem leadingDigits_map (l : List Nat) (h : ∀ d ∈ l, d < 10) :
    leadingDigits (l.map digitToChar) = l := by
  induction l with
  | nil => rfl
  | cons d l ih =>
    have hd : d < 10 := h d (List.mem_cons_self d l)
    simp only [List.map_cons, leadingDigits, charToDigit_digitToChar hd]
    rw [ih (fun x hx => h x (List.mem_cons_of_mem d hx))]

theorem digitToChar_not_ws {d : Nat} (h : d < 10) :
    (digitToChar d).isWhitespace = false := by
  interval_cases d <;> decide

theorem digitToChar_ne_minus {d : Nat} (h : d < 10) : digitToChar d ≠ '-' := by
  interval_cases d <;> decide

theorem digitToChar_ne_plus {d : Nat} (h : d < 10) : digitToChar d ≠ '+' := by
  interval_cases d <;> decide

theorem readNatDigits_natToString (n : Nat) :
    readNatDigits (natToString n).data = some n := by
  by_cases hn : n = 0
  · subst hn; decide
  · have hdig : natDigits n = Nat.digits 10 n := natDigits_eq_digits n
    have hlt : ∀ d ∈ (Nat.digits 10 n).reverse, d < 10 := by
      intro d hd
      exact Nat.digits_lt_base (by norm_num) (List.mem_reverse.mp hd)
    have hdata : (natToString n).data = ((Nat.digits 10 n).reverse.map digitToChar) := by
      simp [natToString, hn, hdig]
    rw [hdata]
    unfold readNatDigits
    rw [leadingDigits_map _ hlt]
    have hne : (Nat.digits 10 n).reverse ≠ [] := by
      simp [Nat.digits_ne_nil_iff_ne_zero.mpr hn]
    simp only [if_neg hne, digitsVal_reverse_digits]

theorem natToString_head_digit (n : Nat) :
    ∃ d rest, d < 10 ∧ (natToString n).data = digitToChar d :: List.map digitToChar rest ∧
      (∀ x ∈ rest, x < 10) := by
  by_cases hn : n = 0
  · exact ⟨0, [], by norm_num, by subst hn; rfl, by simp⟩
  · have hdig : natDigits n = Nat.digits 10 n := natDigits_eq_digits n
    have hne : (Nat.digits 10 n).reverse ≠ [] := by
      simp [Nat.digits_ne_nil_iff_ne_zero.mpr hn]
    obtain ⟨d, rest, hrev⟩ := List.exists_cons_of_ne_nil hne
    have hmem : ∀ x ∈ (Nat.digits 10 n).reverse, x < 10 := fun x hx =>
      Nat.digits_lt_base (by norm_num) (List.mem_reverse.mp hx)
    refine ⟨d, rest, hmem d (by rw [hrev]; exact List.mem_cons_self d rest), ?_, ?_⟩
    · simp [natToString, hn, hdig, hrev]
    · intro x hx
      exact hmem x (by rw [hrev]; exact List.mem_cons_of_mem d hx)

theorem parseIntJS_natToString (n : Nat) :
    parseIntJS (natToString n) = some (n : Int) := by
  obtain ⟨d, rest, hd, hdata, _⟩ := natToString_head_digit n
  unfold parseIntJS
  rw [hdata, List.dropWhile_cons, if_neg (by rw [digitToChar_not_ws hd]; simp)]
  show readSignedDigits (digitToChar d :: List.map digitToChar rest) = some (n : Int)
  simp only [readSignedDigits, if_neg (digitToChar_ne_minus hd), if_neg (digitToChar_ne_plus hd)]
  have := readNatDigits_natToString n
  rw [hdata] at this
  rw [this]
  rfl

theorem parseIntJS_intToString (i : Int) :
    parseIntJS (intToString i) = some i := by
  by_cases hi : i < 0
  · have habs : ((i.natAbs : Int)) = -i := by omega
    unfold intToString
    rw [if_pos hi]
    unfold parseIntJS
    rw [String.data_append]
    have hmdata : ("-" : String).data = ['-'] := rfl
    rw [hmdata]
    show readSignedDigits (List.dropWhile Char.isWhitespace ('-' :: (natToString i.natAbs).data)) = some i
    rw [List.dropWhile_cons, if_neg (by decide)]
    rw [show readSignedDigits ('-' :: (natToString i.natAbs).data)
          = (readNatDigits (natToString i.natAbs).data).map (fun n => -(n : Int)) from rfl]
    rw [readNatDigits_natToString]
    show some (-(i.natAbs : Int)) = some i
    congr 1
    omega
  · unfold intToString
    rw [if_neg hi]
    rw [parseIntJS_natToString]
    congr 1
    omega

theorem intToString_injective {i j : Int} (h : intToString i = intToString j) :
    i = j := by
  have hi := parseIntJS_intToString i
  have hj := parseIntJS_intToString j
  rw [h, hj] at hi
  exact (Option.some_injective _ hi).symm

/-- C6: the season codec round-trips: for every integer year `y`,
`yearForSeasonId (seasonIdForYear y)` parses the string form of
`y - 1917` and adds 1917 back, yielding `y`. -/
theorem season_codec_roundtrip (y : Int) :
    yearForSeasonId (seasonIdForYear y) = some y := by
  unfold yearForSeasonId seasonIdForYear
  rw [parseIntJS_intToString]
  show some (y - 1917 + 1917) = some y
  congr 1
  omega

/-- C5: for every cache entry and for the absent case, `isCacheValid` is
true iff the entry is present and strictly younger than the one-hour
TTL; an entry aged exactly `CACHE_DURATION_MS` (3600000 ms) is stale,
and a missing entry is never fresh. -/
theorem isCacheValid_characterization {α : Type} (now : Int) (item : Option (CacheItem α)) :
    (isCacheValid now item = true ↔ ∃ e, item = some e ∧ now - e.timestamp < CACHE_DURATION_MS)
    ∧ isCacheValid now (none : Option (CacheItem α)) = false
    ∧ (∀ e : CacheItem α, now - e.timestamp = CACHE_DURATION_MS →
        isCacheValid now (some e) = false)
    ∧ CACHE_DURATION_MS = 3600000 := by
  refine ⟨?_, rfl, ?_, rfl⟩
  · cases item with
    | none => simp [isCacheValid]
    | some e => simp [isCacheValid]
  · intro e h
    simp [isCacheValid, h]

/-- Witness for C5 at the exact TTL boundary: an entry written at time 0
checked at time 3600000 is stale. -/
theorem isCacheValid_characterization_witness :
    isCacheValid 3600000 (some { key := JsKey.num 0, data := (0 : Nat), timestamp := 0 }) = false :=
  (isCacheValid_characterization 3600000
    (some { key := JsKey.num 0, data := (0 : Nat), timestamp := 0 })).2.2.1
    { key := JsKey.num 0, data := (0 : Nat), timestamp := 0 } (by decide)

/-! ## Club dedup lemmas (claim C1) -/

theorem clubLookup_cons (p : Int × RawClubData) (m : List (Int × RawClubData)) (k : Int) :
    clubLookup (p :: m) k = if p.1 = k then some p.2 else clubLookup m k := by
  by_cases hp : p.1 = k
  · simp [clubLookup, List.find?_cons, hp]
  · simp [clubLookup, List.find?_cons, hp]

theorem clubLookup_of_any_false {m : List (Int × RawClubData)} {k : Int}
    (h : m.any (fun p => p.1 == k) = false) : clubLookup m k = none := by
  induction m with
  | nil => rfl
  | cons p m ih =>
    simp only [List.any_cons, Bool.or_eq_false_iff] at h
    rw [clubLookup_cons, if_neg (by simpa using h.1)]
    exact ih h.2

theorem clubLookup_replace_self (m : List (Int × RawClubData)) (k : Int) (v : RawClubData) :
    clubLookup (m.map (fun p => if p.1 == k then (k, v) else p)) k =
      if m.any (fun p => p.1 == k) then some v else none := by
  induction m with
  | nil => rfl
  | cons p m ih =>
    by_cases hp : p.1 = k
    · simp only [List.map_cons, if_pos (by simpa using hp : (p.1 == k) = true)]
      rw [clubLookup_cons]
      simp [hp]
    · simp only [List.map_cons, if_neg (by simpa using hp : ¬(p.1 == k) = true)]
      rw [clubLookup_cons, if_neg hp, ih]
      have hb : (p.1 == k) = false := by simpa using hp
      rw [List.any_cons, hb, Bool.false_or]

theorem clubLookup_replace_other {m : List (Int × RawClubData)} {k k' : Int}
    (hne : k' ≠ k) (v : RawClubData) :
    clubLookup (m.map (fun p => if p.1 == k then (k, v) else p)) k' = clubLookup m k' := by
  induction m with
  | nil => rfl
  | cons p m ih =>
    by_cases hp : p.1 = k
    · simp only [List.map_cons, if_pos (by simpa using hp : (p.1 == k) = true)]
      rw [clubLookup_cons, clubLookup_cons, ih]
      have hk1 : ¬((k, v).1 = k') := fun hh => hne (by simpa using hh.symm)
      have hk2 : ¬(p.1 = k') := by rw [hp]; exact fun hh => hne hh.symm
      rw [if_neg hk1, if_neg hk2]
    · simp only [List.map_cons, if_neg (by simpa using hp : ¬(p.1 == k) = true)]
      rw [clubLookup_cons, clubLookup_cons, ih]

theorem clubLookup_append_single_self {m : List (Int × RawClubData)} {k : Int}
    (h : m.any (fun p => p.1 == k) = false) (v : RawClubData) :
    clubLookup (m ++ [(k, v)]) k = some v := by
  induction m with
  | nil => simp [clubLookup_cons]
  | cons p m ih =>
    simp only [List.any_cons, Bool.or_eq_false_iff] at h
    rw [List.cons_append, clubLookup_cons, if_neg (by simpa using h.1)]
    exact ih h.2

theorem clubLookup_append_single_other {m : List (Int × RawClubData)} {k k' : Int}
    (hne : k' ≠ k) (v : RawClubData) :
    clubLookup (m ++ [(k, v)]) k' = clubLookup m k' := by
  induction m with
  | nil => simp [clubLookup_cons, Ne.symm hne, clubLookup]
  | cons p m ih =>
    rw [List.cons_append, clubLookup_cons, clubLookup_cons, ih]

theorem clubMapSet_lookup_self (m : List (Int × RawClubData)) (k : Int) (v : RawClubData) :
    clubLookup (clubMapSet m k v) k = some v := by
  unfold clubMapSet
  cases h : m.any (fun p => p.1 == k) with
  | true => rw [if_pos rfl, clubLookup_replace_self, if_pos h]
  | false =>
    rw [if_neg (by simp)]
    exact clubLookup_append_single_self h v

theorem clubMapSet_lookup_other {m : List (Int × RawClubData)} {k k' : Int}
    (hne : k' ≠ k) (v : RawClubData) :
    clubLookup (clubMapSet m k v) k' = clubLookup m k' := by
  unfold clubMapSet
  cases h : m.any (fun p => p.1 == k) with
  | true => rw [if_pos rfl, clubLookup_replace_other hne]
  | false =>
    rw [if_neg (by simp)]
    exact clubLookup_append_single_other hne v

theorem uniqueClubs_loop (raw : List RawClubData) (k : Int) :
    ∀ acc : List (Int × RawClubData),
      clubLookup (raw.foldl (fun m c => if keepClub c then clubMapSet m c.value c else m) acc) k
        = raw.foldl (fun a r => if keepClub r && r.value == k then some r else a) (clubLookup acc k) := by
  induction raw with
  | nil => intro acc; rfl
  | cons r raw ih =>
    intro acc
    simp only [List.foldl_cons]
    rw [ih]
    congr 1
    by_cases hk : keepClub r
    · simp only [hk, if_true, Bool.true_and]
      by_cases hv : r.value = k
      · subst hv
        rw [clubMapSet_lookup_self, if_pos (by simp)]
      · rw [clubMapSet_lookup_other (Ne.symm hv), if_neg (by simpa using hv)]
    · simp only [hk, if_neg, Bool.false_and, if_false]
      simp [hk]

theorem clubLookup_uniqueClubs (raw : List RawClubData) (k : Int) :
    clubLookup (uniqueClubs raw) k = lastKept raw k := by
  unfold uniqueClubs lastKept
  rw [uniqueClubs_loop raw k []]
  rfl

theorem clubMapSet_keys (m : List (Int × RawClubData)) (k : Int) (v : RawClubData) :
    (clubMapSet m k v).map Prod.fst =
      if m.any (fun p => p.1 == k) then m.map Prod.fst else m.map Prod.fst ++ [k] := by
  unfold clubMapSet
  cases h : m.any (fun p => p.1 == k) with
  | true =>
    rw [if_pos rfl, if_pos rfl, List.map_map]
    apply List.map_congr_left
    intro p _
    by_cases hp : p.1 = k
    · simp [hp]
    · simp [hp]
  | false =>
    rw [if_neg (by simp), if_neg (by simp)]
    simp

theorem clubMapSet_mem {m : List (Int × RawClubData)} {k : Int} {v : RawClubData}
    {q : Int × RawClubData} (h : q ∈ clubMapSet m k v) : q ∈ m ∨ q = (k, v) := by
  unfold clubMapSet at h
  by_cases ha : m.any (fun p => p.1 == k)
  · rw [if_pos ha] at h
    obtain ⟨p, hp, hq⟩ := List.mem_map.mp h
    by_cases hpk : p.1 = k
    · right
      rw [← hq]
      simp [hpk]
    · left
      rw [← hq]
      simpa [hpk] using hp
  · rw [if_neg ha] at h
    rcases List.mem_append.mp h with h | h
    · exact Or.inl h
    · simp only [List.mem_singleton] at h
      exact Or.inr h

theorem uniqueClubs_invariant (raw : List RawClubData) :
    ∀ acc : List (Int × RawClubData),
      ((acc.map Prod.fst).Nodup ∧ ∀ q ∈ acc, q.2.value = q.1 ∧ keepClub q.2 = true) →
      (((raw.foldl (fun m c => if keepClub c then clubMapSet m c.value c else m) acc).map Prod.fst).Nodup
        ∧ ∀ q ∈ raw.foldl (fun m c => if keepClub c then clubMapSet m c.value c else m) acc,
            q.2.value = q.1 ∧ keepClub q.2 = true) := by
  induction raw with
  | nil => intro acc h; exact h
  | cons r raw ih =>
    intro acc h
    simp only [List.foldl_cons]
    apply ih
    by_cases hk : keepClub r
    · rw [if_pos hk]
      constructor
      · rw [clubMapSet_keys]
        cases ha : acc.any (fun p => p.1 == r.value) with
        | true => exact h.1
        | false =>
          rw [if_neg (by simp)]
          have hnotin : r.value ∉ acc.map Prod.fst := by
            intro hmem
            obtain ⟨p, hp, hpv⟩ := List.mem_map.mp hmem
            have := List.any_eq_false.mp ha p hp
            simp [hpv] at this
          simp [List.nodup_append, h.1, hnotin]
      · intro q hq
        rcases clubMapSet_mem hq with hmem | heq
        · exact h.2 q hmem
        · subst heq; exact ⟨rfl, hk⟩
    · rw [if_neg hk]; exact h

theorem uniqueClubs_keys_nodup (raw : List RawClubData) :
    ((uniqueClubs raw).map Prod.fst).Nodup :=
  (uniqueClubs_invariant raw [] ⟨List.nodup_nil, by simp⟩).1

theorem uniqueClubs_entries (raw : List RawClubData) :
    ∀ q ∈ uniqueClubs raw, q.2.value = q.1 ∧ keepClub q.2 = true :=
  (uniqueClubs_invariant raw [] ⟨List.nodup_nil, by simp⟩).2

theorem clubLookup_of_mem_nodup {m : List (Int × RawClubData)} {q : Int × RawClubData}
    (hnd : (m.map Prod.fst).Nodup) (hmem : q ∈ m) : clubLookup m q.1 = some q.2 := by
  induction m with
  | nil => cases hmem
  | cons p m ih =>
    rw [List.map_cons, List.nodup_cons] at hnd
    rcases List.mem_cons.mp hmem with rfl | hmem'
    · rw [clubLookup_cons, if_pos rfl]
    · have hne : p.1 ≠ q.1 := by
        intro he
        exact hnd.1 (he ▸ List.mem_map.mpr ⟨q, hmem', rfl⟩)
      rw [clubLookup_cons, if_neg hne]
      exact ih hnd.2 hmem'

theorem lastKept_spec {raw : List RawClubData} {k : Int} {r : RawClubData}
    (h : lastKept raw k = some r) : r ∈ raw ∧ keepClub r = true ∧ r.value = k := by
  unfold lastKept at h
  suffices hgen : ∀ (l : List RawClubData) (acc : Option RawClubData),
      l.foldl (fun a x => if keepClub x && x.value == k then some x else a) acc = some r →
      acc = some r ∨ (r ∈ l ∧ keepClub r = true ∧ r.value = k) by
    rcases hgen raw none h with hc | hc
    · cases hc
    · exact hc
  intro l
  induction l with
  | nil => intro acc h'; exact Or.inl h'
  | cons x l ih =>
    intro acc h'
    rcases ih _ h' with hstep | hrest
    · by_cases hx : keepClub x && x.value == k
      · simp only [if_pos hx] at hstep
        obtain rfl := Option.some_injective _ hstep
        simp only [Bool.and_eq_true, beq_iff_eq] at hx
        exact Or.inr ⟨List.mem_cons_self x l, hx.1, hx.2⟩
      · simp only [if_neg hx] at hstep
        exact Or.inl hstep
    · exact Or.inr ⟨List.mem_cons_of_mem x hrest.1, hrest.2⟩

theorem lastKept_isSome_of_mem {raw : List RawClubData} {r : RawClubData}
    (hmem : r ∈ raw) (hkeep : keepClub r = true) : (lastKept raw r.value).isSome := by
  unfold lastKept
  have hsome : ∀ (l : List RawClubData) (acc : Option RawClubData), acc.isSome →
      (l.foldl (fun a x => if keepClub x && x.value == r.value then some x else a) acc).isSome := by
    intro l
    induction l with
    | nil => intro acc h; exact h
    | cons x l ih =>
      intro acc h
      apply ih
      by_cases hx : keepClub x && x.value == r.value
      · simp only [if_pos hx]; rfl
      · simp only [if_neg hx]; exact h
  induction raw with
  | nil => cases hmem
  | cons x raw ih =>
    rcases List.mem_cons.mp hmem with rfl | hmem'
    · simp only [List.foldl_cons, hkeep, Bool.true_and, beq_self_eq_true, if_pos]
      exact hsome raw _ rfl
    · simp only [List.foldl_cons]
      by_cases hx : keepClub x && x.value == r.value
      · rw [if_pos hx]
        exact hsome raw _ rfl
      · rw [if_neg hx]
        exact ih hmem'

/-- C1: refuted as stated. On the claim's own example input the parsed
output keeps the LAST-seen label for the duplicated id, so the result is
`[{id:1,name:"B"}]`, not the claimed `[{id:1,name:"A"}]`. -/
theorem club_dedup_first_seen_false :
    parseClubs [⟨1, "A"⟩, ⟨1, "B"⟩, ⟨0, "C"⟩, ⟨2, ""⟩] ≠ [{ id := 1, name := "A" }]
    ∧ parseClubs [⟨1, "A"⟩, ⟨1, "B"⟩, ⟨0, "C"⟩, ⟨2, ""⟩] = [{ id := 1, name := "B" }] := by
  constructor
  · decide
  · decide

/-- C1 (amended): for every raw remote club list, the parsed output
contains exactly one Club per distinct surviving id (ids are
duplicate-free), the name kept for a duplicated id is the LAST-seen kept
label, entries whose id is falsy or whose label is empty or
whitespace-only are dropped, and every kept raw entry is represented; in
particular the example input yields exactly `[{id:1,name:"B"}]`. -/
theorem club_dedup_last_seen (raw : List RawClubData) :
    ((parseClubs raw).map Club.id).Nodup
    ∧ (∀ cl ∈ parseClubs raw, cl.id ≠ 0 ∧ jsTrim cl.name ≠ "" ∧
        (lastKept raw cl.id).map RawClubData.label = some cl.name ∧
        ∃ r ∈ raw, r.value = cl.id ∧ r.label = cl.name)
    ∧ (∀ r ∈ raw, keepClub r = true → ∃ cl ∈ parseClubs raw, cl.id = r.value) := by
  refine ⟨?_, ?_, ?_⟩
  · have hmaps : (parseClubs raw).map Club.id = (uniqueClubs raw).map Prod.fst := by
      unfold parseClubs
      rw [List.map_map]
      apply List.map_congr_left
      intro p hp
      exact (uniqueClubs_entries raw p hp).1
    rw [hmaps]
    exact uniqueClubs_keys_nodup raw
  · intro cl hcl
    obtain ⟨p, hp, rfl⟩ := List.mem_map.mp hcl
    obtain ⟨hpv, hkeep⟩ := uniqueClubs_entries raw p hp
    have hlook : clubLookup (uniqueClubs raw) p.1 = some p.2 :=
      clubLookup_of_mem_nodup (uniqueClubs_keys_nodup raw) hp
    have hlast : lastKept raw p.1 = some p.2 := by
      rw [← clubLookup_uniqueClubs]
      exact hlook
    have hkeep' := hkeep
    simp only [keepClub, Bool.and_eq_true, bne_iff_ne, ne_eq] at hkeep'
    refine ⟨hkeep'.1.1, hkeep'.2, ?_, ?_⟩
    · show (lastKept raw p.2.value).map RawClubData.label = some p.2.label
      rw [hpv, hlast]
      rfl
    · obtain ⟨hmem, _, hval⟩ := lastKept_spec hlast
      exact ⟨p.2, hmem, by rw [hval], rfl⟩
  · intro r hr hkeep
    have hs := lastKept_isSome_of_mem hr hkeep
    obtain ⟨r', hr'⟩ := Option.isSome_iff_exists.mp hs
    have hlook : clubLookup (uniqueClubs raw) r.value = some r' := by
      rw [clubLookup_uniqueClubs]
      exact hr'
    unfold clubLookup at hlook
    obtain ⟨p, hfind, hp2⟩ := Option.map_eq_some'.mp hlook
    have hpmem : p ∈ uniqueClubs raw := List.mem_of_find?_eq_some hfind
    have hpk := List.find?_some hfind
    refine ⟨{ id := p.2.value, name := p.2.label }, List.mem_map.mpr ⟨p, hpmem, rfl⟩, ?_⟩
    show p.2.value = r.value
    rw [(uniqueClubs_entries raw p hpmem).1]
    exact beq_iff_eq.mp hpk

/-- Witness for C1 (amended) on the example input: the surviving label
for the duplicated id 1 is the last-seen label B. -/
theorem club_dedup_last_seen_witness :
    (lastKept [⟨1, "A"⟩, ⟨1, "B"⟩, ⟨0, "C"⟩, ⟨2, ""⟩] 1).map RawClubData.label = some "B" :=
  ((club_dedup_last_seen [⟨1, "A"⟩, ⟨1, "B"⟩, ⟨0, "C"⟩, ⟨2, ""⟩]).2.1
    { id := 1, name := "B" } (by decide)).2.2.1

/-- C2: refuted as stated. Selecting a club does NOT reset `allTeams` to
the empty list: on a state whose `allTeams` holds a team, the list is
unchanged after the selection (it is only replaced later, when the new
club's team fetch resolves). -/
theorem select_club_keeps_allTeams :
    (selectClubWithEffects { id := 1, name := "Klubb" }
      { stateEx with allTeams := [teamEx] }).allTeams ≠ [] := by
  decide

/-- C2 (amended): selecting (or re-selecting) a club resets
`selectedTeamIds` to the empty set, `competitionId` to null and
`playerUsage` to null (and clears the search results and query), so no
team-selection, competition or usage state from a previously selected
club is retained; `allTeams`, however, is left unchanged by the
selection itself and is only replaced when the new club's team fetch
resolves. -/
theorem select_club_resets_selection (club : Club) (s : TrackerState) :
    (selectClubWithEffects club s).selectedTeamIds = []
    ∧ (selectClubWithEffects club s).competitionId = none
    ∧ (selectClubWithEffects club s).playerUsage = none
    ∧ (selectClubWithEffects club s).clubs = []
    ∧ (selectClubWithEffects club s).clubQuery = ""
    ∧ (selectClubWithEffects club s).selectedClub = some club
    ∧ (selectClubWithEffects club s).allTeams = s.allTeams :=
  ⟨rfl, rfl, rfl, rfl, rfl, rfl, rfl⟩

/-! ## Cache-preservation lemmas (claim C4) -/

theorem searchForClubsFetch_error_cache {remote : Remote} {now : Int} {c : Cache} {q sid : String}
    {e : String} (h : (searchForClubsFetch remote now c q sid).2.2 = Except.error e) :
    (searchForClubsFetch remote now c q sid).1 = c := by
  unfold searchForClubsFetch at h ⊢
  cases hl : lookupStore c.clubSearch (JsKey.str (q ++ "-" ++ sid)) with
  | some item =>
    cases hv : isCacheValid now (some item) with
    | true => simp_all [isCacheValid]
    | false =>
      cases hr : remote.searchClubs q sid with
      | none => simp_all [isCacheValid]
      | some resp =>
        cases ho : resp.ok with
        | false => simp_all [isCacheValid]
        | true =>
          cases hj : resp.json with
          | none => simp_all [isCacheValid]
          | some data => simp_all [isCacheValid]
  | none =>
    cases hr : remote.searchClubs q sid with
    | none => simp_all [isCacheValid]
    | some resp =>
      cases ho : resp.ok with
      | false => simp_all [isCacheValid]
      | true =>
        cases hj : resp.json with
        | none => simp_all [isCacheValid]
        | some data => simp_all [isCacheValid]

theorem fetchTeamsPath_error_cache {remote : Remote} {now : Int} {c : Cache} {clubId : Int}
    {e : String} (h : (fetchTeamsPath remote now c clubId).2.2 = Except.error e) :
    (fetchTeamsPath remote now c clubId).1 = c := by
  unfold fetchTeamsPath at h ⊢
  cases hl : lookupStore c.teams (JsKey.num clubId) with
  | some item =>
    cases hv : isCacheValid now (some item) with
    | true => simp_all [isCacheValid]
    | false =>
      cases hr : remote.teams clubId with
      | none => simp_all [isCacheValid]
      | some resp =>
        cases ho : resp.ok with
        | false => simp_all [isCacheValid]
        | true =>
          cases hj : resp.json with
          | none => simp_all [isCacheValid]
          | some data => simp_all [isCacheValid]
  | none =>
    cases hr : remote.teams clubId with
    | none => simp_all [isCacheValid]
    | some resp =>
      cases ho : resp.ok with
      | false => simp_all [isCacheValid]
      | true =>
        cases hj : resp.json with
        | none => simp_all [isCacheValid]
        | some data => simp_all [isCacheValid]

theorem fetchMatchListPath_error_cache {remote : Remote} {now : Int} {c : Cache} {teamId compId : Int}
    {e : String} (h : (fetchMatchListPath remote now c teamId compId).2.2 = Except.error e) :
    (fetchMatchListPath remote now c teamId compId).1 = c := by
  unfold fetchMatchListPath at h ⊢
  cases hl : lookupStore c.matchLists (JsKey.str (listKey teamId compId)) with
  | some item =>
    cases hv : isCacheValid now (some item) with
    | true => simp_all [isCacheValid]
    | false =>
      cases hr : remote.matchesList teamId compId with
      | none => simp_all [isCacheValid]
      | some resp =>
        cases ho : resp.ok with
        | false => simp_all [isCacheValid]
        | true =>
          cases hj : resp.json with
          | none => simp_all [isCacheValid]
          | some data => simp_all [isCacheValid]
  | none =>
    cases hr : remote.matchesList teamId compId with
    | none => simp_all [isCacheValid]
    | some resp =>
      cases ho : resp.ok with
      | false => simp_all [isCacheValid]
      | true =>
        cases hj : resp.json with
        | none => simp_all [isCacheValid]
        | some data => simp_all [isCacheValid]

theorem fetchMatchDetailPath_error_cache {remote : Remote} {now : Int} {c : Cache} {mId : Int}
    {e : String} (h : (fetchMatchDetailPath remote now c mId).2.2 = Except.error e) :
    (fetchMatchDetailPath remote now c mId).1 = c := by
  unfold fetchMatchDetailPath at h ⊢
  cases hl : lookupStore c.matchDetails (JsKey.num mId) with
  | some item =>
    cases hv : isCacheValid now (some item) with
    | true => simp_all [isCacheValid]
    | false =>
      cases hr : remote.matchDetail mId with
      | none => simp_all [isCacheValid]
      | some resp =>
        cases ho : resp.ok with
        | false => simp_all [isCacheValid]
        | true =>
          cases hj : resp.json with
          | none => simp_all [isCacheValid]
          | some data => simp_all [isCacheValid]
  | none =>
    cases hr : remote.matchDetail mId with
    | none => simp_all [isCacheValid]
    | some resp =>
      cases ho : resp.ok with
      | false => simp_all [isCacheValid]
      | true =>
        cases hj : resp.json with
        | none => simp_all [isCacheValid]
        | some data => simp_all [isCacheValid]

/-- C4: a failed fetch never writes a cache entry. On each of the four
cache-or-fetch paths (club search, teams, match lists, match details),
when the operation ends in an error -- transport failure, non-ok status,
or body-parse failure -- the cache is left exactly as it was. -/
theorem failed_fetch_preserves_cache (remote : Remote) (now : Int) (c : Cache)
    (q sid : String) (clubId teamId compId mId : Int) :
    (∀ e, (searchForClubsFetch remote now c q sid).2.2 = Except.error e →
      (searchForClubsFetch remote now c q sid).1 = c)
    ∧ (∀ e, (fetchTeamsPath remote now c clubId).2.2 = Except.error e →
      (fetchTeamsPath remote now c clubId).1 = c)
    ∧ (∀ e, (fetchMatchListPath remote now c teamId compId).2.2 = Except.error e →
      (fetchMatchListPath remote now c teamId compId).1 = c)
    ∧ (∀ e, (fetchMatchDetailPath remote now c mId).2.2 = Except.error e →
      (fetchMatchDetailPath remote now c mId).1 = c) :=
  ⟨fun _ h => searchForClubsFetch_error_cache h,
   fun _ h => fetchTeamsPath_error_cache h,
   fun _ h => fetchMatchListPath_error_cache h,
   fun _ h => fetchMatchDetailPath_error_cache h⟩

/-- Witness for C4: against a fully unreachable remote and an empty
cache, all four paths fail and each leaves the cache untouched. -/
theorem failed_fetch_preserves_cache_witness :
    (searchForClubsFetch remoteDown 0 cacheEmpty "nes" "107").1 = cacheEmpty
    ∧ (fetchTeamsPath remoteDown 0 cacheEmpty 1).1 = cacheEmpty
    ∧ (fetchMatchListPath remoteDown 0 cacheEmpty 1 2).1 = cacheEmpty
    ∧ (fetchMatchDetailPath remoteDown 0 cacheEmpty 5).1 = cacheEmpty :=
  ⟨(failed_fetch_preserves_cache remoteDown 0 cacheEmpty "nes" "107" 1 1 2 5).1
      "NetworkError" rfl,
   (failed_fetch_preserves_cache remoteDown 0 cacheEmpty "nes" "107" 1 1 2 5).2.1
      "NetworkError" rfl,
   (failed_fetch_preserves_cache remoteDown 0 cacheEmpty "nes" "107" 1 1 2 5).2.2.1
      "NetworkError" rfl,
   (failed_fetch_preserves_cache remoteDown 0 cacheEmpty "nes" "107" 1 1 2 5).2.2.2
      "NetworkError" rfl⟩

/-- C8: the analyze operation requires at least one selected team and a
chosen competition: when `selectedTeamIds` is empty or `competitionId`
is unset it sets the validation error and returns at once -- same cache,
empty operation trace, and every other state field untouched. -/
theorem analysis_validation_guard (remote : Remote) (now : Int) (c : Cache)
    (s : TrackerState) (h : s.selectedTeamIds = [] ∨ s.competitionId = none) :
    handleFetchPlayerUsage remote now c s =
      ({ s with error := some validationMessage }, c, []) := by
  unfold handleFetchPlayerUsage
  have hg : analysisGuardFails s = true := by
    rcases h with h | h
    · simp [analysisGuardFails, h]
    · simp [analysisGuardFails, h]
  rw [if_pos hg]

/-- Witness for C8: with no team selected the operation returns the
validation error without touching cache, network or the rest of the
state. -/
theorem analysis_validation_guard_witness :
    handleFetchPlayerUsage remoteDown 0 cacheEmpty { stateEx with selectedTeamIds := [] }
      = ({ stateEx with selectedTeamIds := [], error := some validationMessage },
         cacheEmpty, []) :=
  analysis_validation_guard remoteDown 0 cacheEmpty
    { stateEx with selectedTeamIds := [] } (Or.inl rfl)

/-! ## Store lemmas for the fan-out stages -/

theorem lookupStore_cons {α : Type} (it : CacheItem α) (items : List (CacheItem α)) (k : JsKey) :
    lookupStore (it :: items) k = if it.key = k then some it else lookupStore items k := by
  by_cases h : it.key = k
  · simp [lookupStore, List.find?_cons, h]
  · simp [lookupStore, List.find?_cons, h]

theorem lookupStore_replace_other {α : Type} {items : List (CacheItem α)}
    {it : CacheItem α} {k : JsKey} (h : k ≠ it.key) :
    lookupStore (items.map (fun x => if x.key == it.key then it else x)) k
      = lookupStore items k := by
  induction items with
  | nil => rfl
  | cons p m ih =>
    by_cases hp : p.key = it.key
    · simp only [List.map_cons, if_pos (by simpa using hp : (p.key == it.key) = true)]
      rw [lookupStore_cons, lookupStore_cons, if_neg (fun hh => h hh.symm),
        if_neg (fun hh : p.key = k => h (by rw [← hh, hp])), ih]
    · simp only [List.map_cons, if_neg (by simpa using hp : ¬(p.key == it.key) = true)]
      rw [lookupStore_cons, lookupStore_cons, ih]

theorem lookupStore_append_single_other {α : Type} {items : List (CacheItem α)}
    {it : CacheItem α} {k : JsKey} (h : k ≠ it.key) :
    lookupStore (items ++ [it]) k = lookupStore items k := by
  induction items with
  | nil =>
    simp [lookupStore, List.find?_cons, show ¬(it.key = k) from fun hh => h hh.symm]
  | cons p m ih =>
    rw [List.cons_append, lookupStore_cons, lookupStore_cons, ih]

theorem putStore_lookup_other {α : Type} {items : List (CacheItem α)}
    {it : CacheItem α} {k : JsKey} (h : k ≠ it.key) :
    lookupStore (putStore items it) k = lookupStore items k := by
  unfold putStore
  by_cases ha : items.any (fun x => x.key == it.key)
  · rw [if_pos ha]
    exact lookupStore_replace_other h
  · rw [if_neg ha]
    exact lookupStore_append_single_other h

theorem listKey_inj_left {t t' comp : Int} (h : listKey t comp = listKey t' comp) :
    t = t' := by
  unfold listKey at h
  have hd := congrArg String.data h
  rw [String.data_append, String.data_append, String.data_append, String.data_append,
    List.append_assoc, List.append_assoc] at hd
  have h2 := List.append_cancel_right hd
  exact intToString_injective (congrArg String.mk h2)

theorem fetchMatchListPath_frame (remote : Remote) (now : Int) (c : Cache) (t comp : Int) :
    (fetchMatchListPath remote now c t comp).1.matchDetails = c.matchDetails
    ∧ ∀ k, k ≠ JsKey.str (listKey t comp) →
        lookupStore (fetchMatchListPath remote now c t comp).1.matchLists k
          = lookupStore c.matchLists k := by
  unfold fetchMatchListPath
  cases hl : lookupStore c.matchLists (JsKey.str (listKey t comp)) with
  | some item =>
    cases hv : isCacheValid now (some item) with
    | true => simp [hl, hv]
    | false =>
      cases hr : remote.matchesList t comp with
      | none => simp [hl, hv, hr]
      | some resp =>
        cases ho : resp.ok with
        | false => simp [hl, hv, hr, ho]
        | true =>
          cases hj : resp.json with
          | none => simp [hl, hv, hr, ho, hj]
          | some data =>
            refine ⟨by simp [hl, hv, hr, ho, hj], fun k hk => ?_⟩
            simp only [hl, hv, hr, ho, hj, Bool.not_true, Bool.false_eq_true, if_false]
            exact putStore_lookup_other hk
  | none =>
    cases hr : remote.matchesList t comp with
    | none => simp [hl, hr, isCacheValid]
    | some resp =>
      cases ho : resp.ok with
      | false => simp [hl, hr, ho, isCacheValid]
      | true =>
        cases hj : resp.json with
        | none => simp [hl, hr, ho, hj, isCacheValid]
        | some data =>
          refine ⟨by simp [hl, hr, ho, hj, isCacheValid], fun k hk => ?_⟩
          simp only [hl, hr, ho, hj, isCacheValid, Bool.not_true, Bool.false_eq_true, if_false]
          exact putStore_lookup_other hk

theorem fetchMatchListPath_trace (remote : Remote) (now : Int) (c : Cache) (t comp : Int) :
    ∀ ev ∈ (fetchMatchListPath remote now c t comp).2.1, isStageDEv ev = false := by
  unfold fetchMatchListPath
  cases hl : lookupStore c.matchLists (JsKey.str (listKey t comp)) with
  | some item =>
    cases hv : isCacheValid now (some item) with
    | true => simp [hl, hv, isStageDEv]
    | false =>
      cases hr : remote.matchesList t comp with
      | none => simp [hl, hv, hr, isStageDEv]
      | some resp =>
        cases ho : resp.ok with
        | false => simp [hl, hv, hr, ho, isStageDEv]
        | true =>
          cases hj : resp.json with
          | none => simp [hl, hv, hr, ho, hj, isStageDEv]
          | some data => simp [hl, hv, hr, ho, hj, isStageDEv]
  | none =>
    cases hr : remote.matchesList t comp with
    | none => simp [hl, hr, isCacheValid, isStageDEv]
    | some resp =>
      cases ho : resp.ok with
      | false => simp [hl, hr, ho, isCacheValid, isStageDEv]
      | true =>
        cases hj : resp.json with
        | none => simp [hl, hr, ho, hj, isCacheValid, isStageDEv]
        | some data => simp [hl, hr, ho, hj, isCacheValid, isStageDEv]

theorem fetchMatchListPath_fails {remote : Remote} {now : Int} {c : Cache} {t comp : Int}
    (hmiss : isCacheValid now (lookupStore c.matchLists (JsKey.str (listKey t comp))) = false)
    (hfail : fetchFails (remote.matchesList t comp) = true) :
    ∃ e, (fetchMatchListPath remote now c t comp).2.2 = Except.error e := by
  unfold fetchMatchListPath
  cases hl : lookupStore c.matchLists (JsKey.str (listKey t comp)) with
  | some item =>
    rw [hl] at hmiss
    cases hr : remote.matchesList t comp with
    | none => exact ⟨"NetworkError", by simp [hl, hmiss, hr]⟩
    | some resp =>
      rw [hr] at hfail
      cases ho : resp.ok with
      | false =>
        exact ⟨"Failed fetching matches for team " ++ intToString t,
          by simp [hl, hmiss, hr, ho]⟩
      | true =>
        have hj : resp.json = none := by
          simp only [fetchFails, ho, Bool.not_true, Bool.false_or] at hfail
          exact Option.isNone_iff_eq_none.mp hfail
        exact ⟨"NetworkError", by simp [hl, hmiss, hr, ho, hj]⟩
  | none =>
    cases hr : remote.matchesList t comp with
    | none => exact ⟨"NetworkError", by simp [hl, hr, isCacheValid]⟩
    | some resp =>
      rw [hr] at hfail
      cases ho : resp.ok with
      | false =>
        exact ⟨"Failed fetching matches for team " ++ intToString t,
          by simp [hl, hr, ho, isCacheValid]⟩
      | true =>
        have hj : resp.json = none := by
          simp only [fetchFails, ho, Bool.not_true, Bool.false_or] at hfail
          exact Option.isNone_iff_eq_none.mp hfail
        exact ⟨"NetworkError", by simp [hl, hr, ho, hj, isCacheValid]⟩

theorem fetchMatchDetailPath_fails {remote : Remote} {now : Int} {c : Cache} {mId : Int}
    (hmiss : isCacheValid now (lookupStore c.matchDetails (JsKey.num mId)) = false)
    (hfail : fetchFails (remote.matchDetail mId) = true) :
    ∃ e, (fetchMatchDetailPath remote now c mId).2.2 = Except.error e := by
  unfold fetchMatchDetailPath
  cases hl : lookupStore c.matchDetails (JsKey.num mId) with
  | some item =>
    rw [hl] at hmiss
    cases hr : remote.matchDetail mId with
    | none => exact ⟨"NetworkError", by simp [hl, hmiss, hr]⟩
    | some resp =>
      rw [hr] at hfail
      cases ho : resp.ok with
      | false =>
        exact ⟨"Failed fetching details for match " ++ intToString mId,
          by simp [hl, hmiss, hr, ho]⟩
      | true =>
        have hj : resp.json = none := by
          simp only [fetchFails, ho, Bool.not_true, Bool.false_or] at hfail
          exact Option.isNone_iff_eq_none.mp hfail
        exact ⟨"NetworkError", by simp [hl, hmiss, hr, ho, hj]⟩
  | none =>
    cases hr : remote.matchDetail mId with
    | none => exact ⟨"NetworkError", by simp [hl, hr, isCacheValid]⟩
    | some resp =>
      rw [hr] at hfail
      cases ho : resp.ok with
      | false =>
        exact ⟨"Failed fetching details for match " ++ intToString mId,
          by simp [hl, hr, ho, isCacheValid]⟩
      | true =>
        have hj : resp.json = none := by
          simp only [fetchFails, ho, Bool.not_true, Bool.false_or] at hfail
          exact Option.isNone_iff_eq_none.mp hfail
        exact ⟨"NetworkError", by simp [hl, hr, ho, hj, isCacheValid]⟩

theorem fetchMatchDetailPath_frame (remote : Remote) (now : Int) (c : Cache) (mId : Int) :
    ∀ k, k ≠ JsKey.num mId →
      lookupStore (fetchMatchDetailPath remote now c mId).1.matchDetails k
        = lookupStore c.matchDetails k := by
  unfold fetchMatchDetailPath
  cases hl : lookupStore c.matchDetails (JsKey.num mId) with
  | some item =>
    cases hv : isCacheValid now (some item) with
    | true => simp [hl, hv]
    | false =>
      cases hr : remote.matchDetail mId with
      | none => simp [hl, hv, hr]
      | some resp =>
        cases ho : resp.ok with
        | false => simp [hl, hv, hr, ho]
        | true =>
          cases hj : resp.json with
          | none => simp [hl, hv, hr, ho, hj]
          | some data =>
            intro k hk
            simp only [hl, hv, hr, ho, hj, Bool.not_true, Bool.false_eq_true, if_false]
            exact putStore_lookup_other hk
  | none =>
    cases hr : remote.matchDetail mId with
    | none => simp [hl, hr, isCacheValid]
    | some resp =>
      cases ho : resp.ok with
      | false => simp [hl, hr, ho, isCacheValid]
      | true =>
        cases hj : resp.json with
        | none => simp [hl, hr, ho, hj, isCacheValid]
        | some data =>
          intro k hk
          simp only [hl, hr, ho, hj, isCacheValid, Bool.not_true, Bool.false_eq_true, if_false]
          exact putStore_lookup_other hk

theorem stageC_matchDetails (remote : Remote) (now comp : Int) :
    ∀ (ts : List Int) (c : Cache),
      (stageC remote now comp c ts).1.matchDetails = c.matchDetails := by
  intro ts
  induction ts with
  | nil => intro c; rfl
  | cons t ts ih =>
    intro c
    unfold stageC
    cases hr : (fetchMatchListPath remote now c t comp).2.2 with
    | error e =>
      simp only [hr]
      exact (fetchMatchListPath_frame remote now c t comp).1
    | ok data =>
      simp only [hr]
      rw [ih]
      exact (fetchMatchListPath_frame remote now c t comp).1

theorem stageC_trace (remote : Remote) (now comp : Int) :
    ∀ (ts : List Int) (c : Cache),
      ∀ ev ∈ (stageC remote now comp c ts).2.1, isStageDEv ev = false := by
  intro ts
  induction ts with
  | nil => intro c ev hev; cases hev
  | cons t ts ih =>
    intro c ev hev
    unfold stageC at hev
    cases hr : (fetchMatchListPath remote now c t comp).2.2 with
    | error e =>
      simp only [hr] at hev
      exact fetchMatchListPath_trace remote now c t comp ev hev
    | ok data =>
      simp only [hr] at hev
      rcases List.mem_append.mp hev with h | h
      · exact fetchMatchListPath_trace remote now c t comp ev h
      · exact ih _ ev h

theorem stageC_abort (remote : Remote) (now comp : Int) :
    ∀ (ts : List Int) (c : Cache), ts.Nodup →
      ∀ t ∈ ts,
        isCacheValid now (lookupStore c.matchLists (JsKey.str (listKey t comp))) = false →
        fetchFails (remote.matchesList t comp) = true →
        ∃ e, (stageC remote now comp c ts).2.2 = Except.error e := by
  intro ts
  induction ts with
  | nil => intro c _ t ht; cases ht
  | cons u ts ih =>
    intro c hnd t ht hmiss hfail
    rcases List.mem_cons.mp ht with rfl | hts
    · obtain ⟨e, he⟩ := fetchMatchListPath_fails hmiss hfail
      refine ⟨e, ?_⟩
      unfold stageC
      simp only [he]
    · have hneq : t ≠ u := fun hh => (List.nodup_cons.mp hnd).1 (hh ▸ hts)
      cases hr : (fetchMatchListPath remote now c u comp).2.2 with
      | error e =>
        refine ⟨e, ?_⟩
        unfold stageC
        simp only [hr]
      | ok data =>
        have hkey : JsKey.str (listKey t comp) ≠ JsKey.str (listKey u comp) := by
          intro hh
          exact hneq (listKey_inj_left (by injection hh))
        have hmiss' : isCacheValid now
            (lookupStore (fetchMatchListPath remote now c u comp).1.matchLists
              (JsKey.str (listKey t comp))) = false := by
          rw [(fetchMatchListPath_frame remote now c u comp).2 _ hkey]
          exact hmiss
        obtain ⟨e, he⟩ := ih (fetchMatchListPath remote now c u comp).1
          (List.nodup_cons.mp hnd).2 t hts hmiss' hfail
        refine ⟨e, ?_⟩
        unfold stageC
        simp only [hr, he, Except.map]

theorem stageD_abort (remote : Remote) (now : Int) :
    ∀ (ms : List Int) (c : Cache), ms.Nodup →
      ∀ m ∈ ms,
        isCacheValid now (lookupStore c.matchDetails (JsKey.num m)) = false →
        fetchFails (remote.matchDetail m) = true →
        ∃ e, (stageD remote now c ms).2.2 = Except.error e := by
  intro ms
  induction ms with
  | nil => intro c _ m hm; cases hm
  | cons u ms ih =>
    intro c hnd m hm hmiss hfail
    rcases List.mem_cons.mp hm with rfl | hms
    · obtain ⟨e, he⟩ := fetchMatchDetailPath_fails hmiss hfail
      refine ⟨e, ?_⟩
      unfold stageD
      simp only [he]
    · have hneq : m ≠ u := fun hh => (List.nodup_cons.mp hnd).1 (hh ▸ hms)
      cases hr : (fetchMatchDetailPath remote now c u).2.2 with
      | error e =>
        refine ⟨e, ?_⟩
        unfold stageD
        simp only [hr]
      | ok data =>
        have hkey : JsKey.num m ≠ JsKey.num u := by
          intro hh
          exact hneq (by injection hh)
        have hmiss' : isCacheValid now
            (lookupStore (fetchMatchDetailPath remote now c u).1.matchDetails
              (JsKey.num m)) = false := by
          rw [fetchMatchDetailPath_frame remote now c u _ hkey]
          exact hmiss
        obtain ⟨e, he⟩ := ih (fetchMatchDetailPath remote now c u).1
          (List.nodup_cons.mp hnd).2 m hms hmiss' hfail
        refine ⟨e, ?_⟩
        unfold stageD
        simp only [hr, he, Except.map]

theorem dedupKeepFirst_nodup (l : List Int) : (dedupKeepFirst l).Nodup := by
  unfold dedupKeepFirst
  suffices h : ∀ (l : List Int) (acc : List Int), acc.Nodup →
      (List.foldl (fun acc x => if acc.contains x then acc else acc ++ [x]) acc l).Nodup from
    h l [] List.nodup_nil
  intro l
  induction l with
  | nil => intro acc h; exact h
  | cons x l ih =>
    intro acc h
    simp only [List.foldl_cons]
    apply ih
    by_cases hc : acc.contains x
    · simp only [hc, if_true]; exact h
    · simp only [hc, Bool.false_eq_true, if_false]
      have hx : x ∉ acc := by simpa using hc
      simp [List.nodup_append, h, hx]

/-- C3: if any one of the Stage C match-list fetches (or Stage D
match-detail fetches) that must actually hit the network fails, the
whole analysis aborts with no partial result: `playerUsage` stays
`null` and the error state carries the failure message. -/
theorem fanout_failure_aborts (remote : Remote) (now : Int) (c : Cache) (s : TrackerState)
    (compId : Int) (hcomp : s.competitionId = some compId)
    (hguard : analysisGuardFails s = false) (hnd : s.selectedTeamIds.Nodup)
    (h : (∃ t ∈ s.selectedTeamIds,
            isCacheValid now (lookupStore c.matchLists (JsKey.str (listKey t compId))) = false
            ∧ fetchFails (remote.matchesList t compId) = true)
       ∨ (∃ lists, (stageC remote now compId c s.selectedTeamIds).2.2 = Except.ok lists
            ∧ ∃ m ∈ matchIdUnion lists,
                isCacheValid now (lookupStore c.matchDetails (JsKey.num m)) = false
                ∧ fetchFails (remote.matchDetail m) = true)) :
    (handleFetchPlayerUsage remote now c s).1.playerUsage = none
    ∧ ∃ e, (handleFetchPlayerUsage remote now c s).1.error = some e := by
  unfold handleFetchPlayerUsage
  rw [if_neg (by simp [hguard]), hcomp]
  rcases h with ⟨t, ht, hmiss, hfail⟩ | ⟨lists, hC, m, hm, hmiss, hfail⟩
  · obtain ⟨e, he⟩ := stageC_abort remote now compId s.selectedTeamIds c hnd t ht hmiss hfail
    simp only [he]
    exact ⟨trivial, e, rfl⟩
  · simp only [hC]
    have hne : matchIdUnion lists ≠ [] := fun hh => by rw [hh] at hm; cases hm
    have hisEmpty : (matchIdUnion lists).isEmpty = false := by
      simpa [List.isEmpty_iff] using hne
    simp only [hisEmpty, Bool.false_eq_true, if_false]
    have hmiss' : isCacheValid now
        (lookupStore (stageC remote now compId c s.selectedTeamIds).1.matchDetails
          (JsKey.num m)) = false := by
      rw [stageC_matchDetails]
      exact hmiss
    obtain ⟨e, he⟩ := stageD_abort remote now (matchIdUnion lists)
      (stageC remote now compId c s.selectedTeamIds).1
      (dedupKeepFirst_nodup _) m hm hmiss' hfail
    simp only [he]
    exact ⟨trivial, e, rfl⟩

/-- Witness for C3: with team 1 selected, competition 2 chosen, an empty
cache and an unreachable remote, the analysis leaves `playerUsage` null. -/
theorem fanout_failure_aborts_witness :
    (handleFetchPlayerUsage remoteDown 0 cacheEmpty stateEx).1.playerUsage = none :=
  (fanout_failure_aborts remoteDown 0 cacheEmpty stateEx 2 rfl rfl (by decide)
    (Or.inl ⟨1, by decide, rfl, rfl⟩)).1

/-- C7: if the deduplicated union of match ids produced by Stage C is
empty, the analysis short-circuits to the empty `PlayerUsageData`, its
operation trace is exactly Stage C's trace, and that trace contains no
Stage D fetch and no Stage D cache operation. -/
theorem empty_union_short_circuit (remote : Remote) (now : Int) (c : Cache)
    (s : TrackerState) (compId : Int) (lists : List (List MatchStub))
    (hcomp : s.competitionId = some compId)
    (hguard : analysisGuardFails s = false)
    (hC : (stageC remote now compId c s.selectedTeamIds).2.2 = Except.ok lists)
    (hempty : matchIdUnion lists = []) :
    (handleFetchPlayerUsage remote now c s).1.playerUsage
        = some { players := [], weeks := [], usage := [] }
    ∧ (handleFetchPlayerUsage remote now c s).2.2
        = (stageC remote now compId c s.selectedTeamIds).2.1
    ∧ ∀ ev ∈ (handleFetchPlayerUsage remote now c s).2.2, isStageDEv ev = false := by
  unfold handleFetchPlayerUsage
  rw [if_neg (by simp [hguard]), hcomp]
  simp only [hC, hempty, List.isEmpty_nil, if_true]
  exact ⟨trivial, trivial, stageC_trace remote now compId s.selectedTeamIds c⟩

/-- Witness for C7: a remote whose match-list endpoint answers with an
empty list yields the empty usage result without any Stage D traffic. -/
theorem empty_union_short_circuit_witness :
    (handleFetchPlayerUsage remoteEmptyLists 0 cacheEmpty stateEx).1.playerUsage
      = some { players := [], weeks := [], usage := [] } :=
  (empty_union_short_circuit remoteEmptyLists 0 cacheEmpty stateEx 2 [[]]
    rfl rfl rfl rfl).1

/-! ## Fold-step lemmas (claims C9 and C10) -/

theorem updAssoc_keys {α : Type} (l : List (String × α)) (k : String) (v : α) :
    (updAssoc l k v).map Prod.fst =
      if l.any (fun p => p.1 == k) then l.map Prod.fst else l.map Prod.fst ++ [k] := by
  unfold updAssoc
  cases h : l.any (fun p => p.1 == k) with
  | true =>
    rw [if_pos rfl, if_pos rfl, List.map_map]
    apply List.map_congr_left
    intro p _
    by_cases hp : p.1 = k
    · simp [hp]
    · simp [hp]
  | false =>
    rw [if_neg (by simp), if_neg (by simp)]
    simp

theorem updAssoc_keys_mem {α : Type} {l : List (String × α)} {k a : String} {v : α}
    (h : a ∈ (updAssoc l k v).map Prod.fst) : a ∈ l.map Prod.fst ∨ a = k := by
  rw [updAssoc_keys] at h
  by_cases ha : l.any (fun p => p.1 == k)
  · rw [if_pos ha] at h
    exact Or.inl h
  · rw [if_neg ha] at h
    rcases List.mem_append.mp h with h | h
    · exact Or.inl h
    · exact Or.inr (List.mem_singleton.mp h)

theorem updAssoc_key_mem_self {α : Type} (l : List (String × α)) (k : String) (v : α) :
    k ∈ (updAssoc l k v).map Prod.fst := by
  rw [updAssoc_keys]
  cases ha : l.any (fun p => p.1 == k) with
  | true =>
    rw [if_pos rfl]
    obtain ⟨p, hp, hpk⟩ := List.any_eq_true.mp ha
    exact List.mem_map.mpr ⟨p, hp, by simpa using hpk⟩
  | false =>
    rw [if_neg (by simp)]
    exact List.mem_append.mpr (Or.inr (List.mem_singleton.mpr rfl))

theorem updAssoc_keys_super {α : Type} (l : List (String × α)) (k : String) (v : α) :
    ∀ a ∈ l.map Prod.fst, a ∈ (updAssoc l k v).map Prod.fst := by
  intro a ha
  rw [updAssoc_keys]
  cases hc : l.any (fun p => p.1 == k) with
  | true => rw [if_pos rfl]; exact ha
  | false => rw [if_neg (by simp)]; exact List.mem_append.mpr (Or.inl ha)

theorem lookupAssoc_mem_keys {α : Type} {l : List (String × α)} {k : String} {v : α}
    (h : lookupAssoc l k = some v) : k ∈ l.map Prod.fst := by
  unfold lookupAssoc at h
  obtain ⟨p, hfind, _⟩ := Option.map_eq_some'.mp h
  have hp := List.find?_some hfind
  exact List.mem_map.mpr ⟨p, List.mem_of_find?_eq_some hfind, by simpa using hp⟩

theorem foldPlayer_usage_sub {teamName : String} {week : Int} {st : FoldState}
    (h : ∀ a ∈ st.usage.map Prod.fst, a ∈ st.players.map Prod.fst) (p : Player) :
    ∀ a ∈ (foldPlayer teamName week st p).usage.map Prod.fst,
      a ∈ (foldPlayer teamName week st p).players.map Prod.fst := by
  intro a ha
  unfold foldPlayer at ha ⊢
  cases hreg : jsFalsyStr (lookupAssoc st.players (intToString p.personId)) with
  | true =>
    simp only [hreg, if_true] at ha ⊢
    rcases updAssoc_keys_mem ha with ha' | rfl
    · rcases updAssoc_keys_mem ha' with ha'' | rfl
      · exact updAssoc_keys_super _ _ _ a (h a ha'')
      · exact updAssoc_key_mem_self _ _ _
    · exact updAssoc_key_mem_self _ _ _
  | false =>
    simp only [hreg, Bool.false_eq_true, if_false] at ha ⊢
    rcases updAssoc_keys_mem ha with ha' | rfl
    · exact h a ha'
    · cases hlk : lookupAssoc st.players (intToString p.personId) with
      | none => rw [hlk] at hreg; cases hreg
      | some s => exact lookupAssoc_mem_keys hlk

theorem foldPlayers_usage_sub (teamName : String) (week : Int) :
    ∀ (ps : List Player) (st : FoldState),
      (∀ a ∈ st.usage.map Prod.fst, a ∈ st.players.map Prod.fst) →
      ∀ a ∈ (ps.foldl (foldPlayer teamName week) st).usage.map Prod.fst,
        a ∈ (ps.foldl (foldPlayer teamName week) st).players.map Prod.fst := by
  intro ps
  induction ps with
  | nil => intro st h; exact h
  | cons p ps ih =>
    intro st h
    simp only [List.foldl_cons]
    exact ih _ (foldPlayer_usage_sub h p)

theorem processMatch_usage_sub (sel : List Int) (m : MatchData) {st : FoldState}
    (h : ∀ a ∈ st.usage.map Prod.fst, a ∈ st.players.map Prod.fst) :
    ∀ a ∈ (processMatch sel st m).usage.map Prod.fst,
      a ∈ (processMatch sel st m).players.map Prod.fst := by
  simp only [processMatch]
  cases hb : sel.contains (if sel.contains m.homeTeam.id then m.homeTeam else m.awayTeam).id with
  | false => exact h
  | true =>
    show ∀ a ∈ (foldSide st m.week
        (if sel.contains m.homeTeam.id then m.homeTeam else m.awayTeam)).usage.map Prod.fst,
      a ∈ (foldSide st m.week
        (if sel.contains m.homeTeam.id then m.homeTeam else m.awayTeam)).players.map Prod.fst
    unfold foldSide
    exact foldPlayers_usage_sub _ _ _ _ h

theorem buildUsage_usage_sub (sel : List Int) :
    ∀ (ms : List MatchData) (st : FoldState),
      (∀ a ∈ st.usage.map Prod.fst, a ∈ st.players.map Prod.fst) →
      ∀ a ∈ (ms.foldl (processMatch sel) st).usage.map Prod.fst,
        a ∈ (ms.foldl (processMatch sel) st).players.map Prod.fst := by
  intro ms
  induction ms with
  | nil => intro st h; exact h
  | cons m ms ih =>
    intro st h
    simp only [List.foldl_cons]
    exact ih _ (processMatch_usage_sub sel m h)

theorem foldPlayer_weekSet (teamName : String) (week : Int) (st : FoldState) (p : Player) :
    (foldPlayer teamName week st p).weekSet = st.weekSet := by
  unfold foldPlayer
  cases hreg : jsFalsyStr (lookupAssoc st.players (intToString p.personId)) <;> simp [hreg]

theorem foldPlayers_weekSet (teamName : String) (week : Int) :
    ∀ (ps : List Player) (st : FoldState),
      (ps.foldl (foldPlayer teamName week) st).weekSet = st.weekSet := by
  intro ps
  induction ps with
  | nil => intro st; rfl
  | cons p ps ih =>
    intro st
    simp only [List.foldl_cons]
    rw [ih, foldPlayer_weekSet]

theorem addToSet_nodup {l : List Int} {x : Int} (h : l.Nodup) : (addToSet l x).Nodup := by
  unfold addToSet
  by_cases hc : l.contains x
  · have hx : x ∈ l := by simpa using hc
    simp [hx, h]
  · have hx : x ∉ l := by simpa using hc
    simp [hx, List.nodup_append, h]

theorem processMatch_weekSet_nodup (sel : List Int) (m : MatchData) {st : FoldState}
    (h : st.weekSet.Nodup) : (processMatch sel st m).weekSet.Nodup := by
  simp only [processMatch]
  cases hb : sel.contains (if sel.contains m.homeTeam.id then m.homeTeam else m.awayTeam).id with
  | false => exact h
  | true =>
    show (foldSide st m.week
        (if sel.contains m.homeTeam.id then m.homeTeam else m.awayTeam)).weekSet.Nodup
    unfold foldSide
    rw [foldPlayers_weekSet]
    exact addToSet_nodup h

theorem buildUsage_weekSet_nodup (sel : List Int) :
    ∀ (ms : List MatchData) (st : FoldState), st.weekSet.Nodup →
      ((ms.foldl (processMatch sel) st).weekSet).Nodup := by
  intro ms
  induction ms with
  | nil => intro st h; exact h
  | cons m ms ih =>
    intro st h
    simp only [List.foldl_cons]
    exact ih _ (processMatch_weekSet_nodup sel m h)

theorem weekLabel_injective : Function.Injective weekLabel := by
  intro a b h
  unfold weekLabel at h
  have hd := congrArg String.data h
  rw [String.data_append, String.data_append] at hd
  exact intToString_injective (congrArg String.mk (List.append_cancel_left hd))

/-- C9: every `PlayerUsageData` produced by the fold step has `weeks`
equal to the label images of a strictly increasing (hence ascending and
duplicate-free) list of numeric weeks, each label being literally
`Uke {n}`; the label list itself has no duplicates; and every player id
occurring as a key of `usage` also occurs as a key of `players`. -/
theorem player_usage_invariants (sel : List Int) (ms : List MatchData) :
    (∃ ws : List Int, (buildUsage sel ms).weeks = ws.map weekLabel
        ∧ List.Sorted (· < ·) ws)
    ∧ (buildUsage sel ms).weeks.Nodup
    ∧ ∀ pid ∈ (buildUsage sel ms).usage.map Prod.fst,
        pid ∈ (buildUsage sel ms).players.map Prod.fst := by
  have hnodup : ((ms.foldl (processMatch sel)
      { players := [], usage := [], weekSet := [] }).weekSet).Nodup :=
    buildUsage_weekSet_nodup sel ms _ List.nodup_nil
  have hsortNodup : (List.insertionSort (· ≤ ·)
      (ms.foldl (processMatch sel) { players := [], usage := [], weekSet := [] }).weekSet).Nodup :=
    (List.perm_insertionSort (· ≤ ·) _).symm.nodup hnodup
  refine ⟨⟨List.insertionSort (· ≤ ·)
      (ms.foldl (processMatch sel) { players := [], usage := [], weekSet := [] }).weekSet,
      rfl, ?_⟩, ?_, ?_⟩
  · exact (List.sorted_insertionSort (· ≤ ·) _).lt_of_le hsortNodup
  · exact hsortNodup.map weekLabel_injective
  · exact buildUsage_usage_sub sel ms
      { players := [], usage := [], weekSet := [] } (by simp)

/-- Witness for C9 on a concrete match: player 7 appears in `usage`, so
the subset property puts them in `players` too. -/
theorem player_usage_invariants_witness :
    "7" ∈ (buildUsage [1] [matchEx]).players.map Prod.fst :=
  (player_usage_invariants [1] [matchEx]).2.2 "7" (by decide)

/-- C10: when the home side's id is selected, only the home side is
folded: the away side is entirely irrelevant (replacing it changes
nothing) even if its id is also selected, and the match contributes the
home side's week, players and team name; the away side is folded exactly
when the home id is not selected and the away id is; when neither side
is selected the match is skipped. -/
theorem fold_prefers_home_side (sel : List Int) (st : FoldState) (m : MatchData) :
    (sel.contains m.homeTeam.id = true →
      (∀ t : MatchSide, processMatch sel st { m with awayTeam := t } = processMatch sel st m)
      ∧ processMatch sel st m = foldSide st m.week m.homeTeam)
    ∧ (sel.contains m.homeTeam.id = false → sel.contains m.awayTeam.id = true →
      processMatch sel st m = foldSide st m.week m.awayTeam)
    ∧ (sel.contains m.homeTeam.id = false → sel.contains m.awayTeam.id = false →
      processMatch sel st m = st) := by
  refine ⟨fun hh => ⟨fun t => ?_, ?_⟩, fun hh ha => ?_, fun hh ha => ?_⟩
  · have hh' : m.homeTeam.id ∈ sel := by simpa using hh
    simp [processMatch, hh']
  · have hh' : m.homeTeam.id ∈ sel := by simpa using hh
    simp [processMatch, hh']
  · have hh' : m.homeTeam.id ∉ sel := by simpa using hh
    have ha' : m.awayTeam.id ∈ sel := by simpa using ha
    simp [processMatch, hh', ha']
  · have hh' : m.homeTeam.id ∉ sel := by simpa using hh
    have ha' : m.awayTeam.id ∉ sel := by simpa using ha
    simp [processMatch, hh', ha']

/-- Witness for C10: with both sides of the sample match selected, the
away side can be replaced wholesale without changing the fold result. -/
theorem fold_prefers_home_side_witness :
    processMatch [1, 2] { players := [], usage := [], weekSet := [] }
        { matchEx with awayTeam := { id := 2, name := "X", players := [] } }
      = processMatch [1, 2] { players := [], usage := [], weekSet := [] } matchEx :=
  ((fold_prefers_home_side [1, 2] { players := [], usage := [], weekSet := [] } matchEx).1
    (by decide)).1 { id := 2, name := "X", players := [] }

end MinFiks
